import Mathlib

/-!
Shallow embedding of the file-ingestion orchestrator of
src/RecDP/pyrecdp/primitives/document/reader.py, together with theorems
settling the specification claims about it.

Conventions of the embedding:
* Python strings are Lean Strings; Python str.strip() is modelled by
  pyStrip below (drop whitespace from both ends).  Char.isWhitespace,
  Char.isAlpha and Char.isUpper model the Python character predicates;
  they agree on the ASCII texts all concrete inputs use.
* External collaborators that are not part of reader.py (the pypdf /
  docx / OCR / whisper extraction backends, os.path.isfile, and the
  directory-traversal helper get_files from pyrecdp.core.path_utils)
  are modelled as an opaque environment (structure Env): reader.py
  itself treats them as black boxes.
* Fallible Python calls are modelled with Except String: an adapter or
  custom loader that raises corresponds to Except.error.
* Python set(...) has unspecified iteration order; it is modelled by
  List.dedup, and only order-insensitive facts (membership, length,
  counts) are proved about the deduplicated lists.
-/

/-- Modelled from the spec: the Record schema of
pyrecdp.primitives.document.schema (not under src/) is a plain
text-plus-metadata pair; metadata is a string-to-string mapping. -/
structure Document where
  text : String
  metadata : List (String × String)
deriving DecidableEq, Repr

/-- Characters remaining after stripping whitespace from both ends;
the character-level model of Python str.strip(). -/
def stripChars (cs : List Char) : List Char :=
  ((cs.dropWhile Char.isWhitespace).reverse.dropWhile Char.isWhitespace).reverse

/-- Model of Python str.strip() (no arguments: strip whitespace). -/
def pyStrip (s : String) : String :=
  ⟨stripChars s.data⟩

/-- Walk a character list; answer whether the first alphabetic
character is uppercase (false when there is none). -/
def firstAlphaUpperAux : List Char → Bool
  | [] => false
  | c :: cs => if c.isAlpha then c.isUpper else firstAlphaUpperAux cs

/-- reader.py lines 59-66, firstAlphaIsUppercase: scan the text for its
first alphabetic character and report whether it is uppercase.  (The
source closure reads doc.text[i], but it is only ever called with
word = doc.text, so the function of the word is the faithful model.) -/
def firstAlphaIsUppercase (word : String) : Bool :=
  firstAlphaUpperAux word.data

/-- reader.py line 57: drop every record whose text strips to empty. -/
def filterRecords (docs : List Document) : List Document :=
  docs.filter (fun d => pyStrip d.text != "")

/-- reader.py lines 69-74: the merge loop of FileBaseReader.load.  The
accumulator starts at "" and each record's text is appended after a
hard-coded "\n\n " (first alphabetic character uppercase) or " "
(otherwise); the configured page_separator is not consulted. -/
def mergeText : List Document → String → String
  | [], acc => acc
  | d :: ds, acc =>
      if firstAlphaIsUppercase d.text then mergeText ds (acc ++ "\n\n " ++ d.text)
      else mergeText ds (acc ++ " " ++ d.text)

/-- reader.py lines 55-78, FileBaseReader.load: filter out
whitespace-only records, then either collapse to a single record whose
metadata is the source path only (single_text_per_document mode) or
return the filtered records.  page_separator is stored by the
constructor but unused by load. -/
def loadFB (single_text_per_document : Bool) (page_separator : String)
    (file : String) (raw : List Document) : List Document :=
  let docs := filterRecords raw
  if single_text_per_document then
    [⟨mergeText docs "", [("source", file)]⟩]
  else
    docs

/-- The Merge Policy as worded by the specification (refinement
target, deliberately NOT translated from the source): an
uppercase-start unit gets two newlines plus the separator prepended,
every other unit gets a single separator prepended. -/
def mergeTextSpec (sep : String) : List Document → String → String
  | [], acc => acc
  | d :: ds, acc =>
      if firstAlphaIsUppercase d.text then mergeTextSpec sep ds (acc ++ "\n\n" ++ sep ++ d.text)
      else mergeTextSpec sep ds (acc ++ sep ++ d.text)

/-- reader.py lines 96-113, PDFReader.load_file with the extraction
backend's per-page output supplied as (page_label, page_text) pairs:
one record per page carrying page_label and source metadata. -/
def pdfLoadFile (pages : List (String × String)) (file : String) : List Document :=
  pages.map (fun pl => ⟨pl.2, [("page_label", pl.1), ("source", file)]⟩)

/-- The final component of a path: the characters after the last
slash (model of pathlib's Path(...).name). -/
def pathName (p : String) : String :=
  ⟨(p.data.reverse.takeWhile (fun c => c != '/')).reverse⟩

/-- Model of pathlib's Path(...).suffix, used as file_to_load.suffix
and input_file.suffix in reader.py: the final component's extension
from its last dot onward, empty when the name has no dot, starts with
its only dot, or ends in a dot. -/
def pathSuffix (p : String) : String :=
  let name := (pathName p).data
  let tail := name.reverse.takeWhile (fun c => c != '.')
  if tail.length = name.length then ""
  else
    let i := name.length - tail.length - 1
    if 0 < i ∧ i < name.length - 1 then ⟨name.drop i⟩ else ""

/-- The four format-adapter classes of reader.py (PDFReader,
DocxReader, ImageReader, AudioReader), named as types so setup
invocations can be counted per adapter type. -/
inductive AdapterType
  | pdf
  | docx
  | image
  | audio
deriving DecidableEq, Repr

/-- reader.py lines 195-204, _default_file_readers: the static
extension-to-adapter-class registry. -/
def defaultFileReaders : List (String × AdapterType) :=
  [(".pdf", AdapterType.pdf), (".docx", AdapterType.docx),
   (".jpg", AdapterType.image), (".jpeg", AdapterType.image), (".png", AdapterType.image),
   (".mp3", AdapterType.audio), (".wav", AdapterType.audio), (".flac", AdapterType.audio)]

/-- Registry lookup (Python: ext in _default_file_readers /
_default_file_readers[ext]). -/
def lookupReader (ext : String) : Option AdapterType :=
  (defaultFileReaders.find? (fun p => p.1 == ext)).map Prod.snd

/-- The collaborators read_from_directory calls but does not define:
os.path.isfile, the get_files traversal helper (pyrecdp.core.path_utils,
not under src/), the format-specific extraction backends (the result of
load_file on a path, Except.error when the adapter raises), and the
caller-supplied custom loaders mapping. -/
structure Env where
  isFile : String → Bool
  getFiles : String → List String
  loadFileRaw : String → Except String (List Document)
  customLoaders : List (String × (String → Except String (List Document)))

/-- Lookup in the caller-supplied loaders mapping (Python: loaders and
file_to_load.suffix in loaders).  An absent/None mapping is the empty
list, on which lookup always fails, matching Python truthiness. -/
def lookupLoader (ldrs : List (String × (String → Except String (List Document))))
    (ext : String) : Option (String → Except String (List Document)) :=
  (ldrs.find? (fun p => p.1 == ext)).map Prod.snd

/-- reader.py lines 216-233, read_from_directory.read_file: custom
loader first; else the registered adapter constructed with default
configuration (single_text_per_document=True, page_separator='\n');
else warn and return no records.  The try/finally only updates the
progress bar: an exception is NOT caught, so an error from the loader
propagates (Except.error). -/
def read_file (env : Env) (f : String) : Except String (List Document) :=
  match lookupLoader env.customLoaders (pathSuffix f) with
  | some ldr => ldr f
  | none =>
      if (lookupReader (pathSuffix f)).isSome then
        (env.loadFileRaw f).map (loadFB true "\n" f)
      else
        Except.ok []

/-- reader.py lines 235-251: the file collection before
deduplication — explicit input_files (when truthy: supplied and
non-empty) filtered to regular files, otherwise traversal of every
input directory. -/
def rawFiles (env : Env) (input_dirs : List String)
    (input_files : Option (List String)) : List String :=
  match input_files with
  | some fs => if fs.isEmpty then input_dirs.flatMap env.getFiles else fs.filter env.isFile
  | none => input_dirs.flatMap env.getFiles

/-- reader.py line 253, files_to_read = list(set(files_to_read)): the
deduplicated resolved file set (set iteration order is unspecified;
List.dedup is the order-canonical model). -/
def resolveFiles (env : Env) (input_dirs : List String)
    (input_files : Option (List String)) : List String :=
  (rawFiles env input_dirs input_files).dedup

/-- reader.py lines 258-265, install_reader_requirements: the distinct
extensions of the resolved file set, each looked up in the registry;
the resulting list is the sequence of .setup() invocations, one entry
per registered distinct extension, tagged with the adapter type whose
setup runs. -/
def installSetups (files : List String) : List AdapterType :=
  ((files.map pathSuffix).dedup).filterMap lookupReader

/-- Number of setup invocations that hit adapter type t. -/
def countSetups (t : AdapterType) (l : List AdapterType) : Nat :=
  (l.filter (fun x => decide (x = t))).length

/-- Sequencing model of iterating executor.map's result iterator in
the list comprehension of reader.py lines 275-279: results are
consumed in file order and the first exception re-raises, discarding
everything. -/
def exceptMapM (g : String → Except String (List Document)) :
    List String → Except String (List (List Document))
  | [] => Except.ok []
  | x :: xs =>
      match g x with
      | Except.error e => Except.error e
      | Except.ok y =>
          match exceptMapM g xs with
          | Except.error e => Except.error e
          | Except.ok ys => Except.ok (y :: ys)

/-- reader.py lines 207-281, read_from_directory: resolve and
deduplicate the file set, return [] early when it is empty, then map
read_file over it and flatten all records (the {text, metadata} dicts
carry exactly the Document fields).  install_reader_requirements's
setup side effects are modelled separately by installSetups. -/
def read_from_directory (env : Env) (input_dirs : List String)
    (input_files : Option (List String)) : Except String (List Document) :=
  let files := resolveFiles env input_dirs input_files
  if files.isEmpty then Except.ok []
  else (exceptMapM (read_file env) files).map List.flatten

theorem stripChars_eq_nil_iff (cs : List Char) :
    stripChars cs = [] ↔ ∀ c ∈ cs, c.isWhitespace := by
  unfold stripChars
  rw [List.reverse_eq_nil_iff, List.dropWhile_eq_nil_iff]
  constructor
  · intro h c hc
    have hsplit := List.takeWhile_append_dropWhile Char.isWhitespace cs
    rw [← hsplit] at hc
    rcases List.mem_append.mp hc with h1 | h2
    · exact List.mem_takeWhile_imp h1
    · exact h c (List.mem_reverse.mpr h2)
  · intro h c hc
    exact h c ((List.dropWhile_sublist _).subset (List.mem_reverse.mp hc))

theorem pyStrip_eq_empty_iff (s : String) :
    pyStrip s = "" ↔ ∀ c ∈ s.data, c.isWhitespace := by
  rw [String.ext_iff]
  exact stripChars_eq_nil_iff s.data

theorem mem_mergeText_acc (ds : List Document) (acc : String) (c : Char)
    (hc : c ∈ acc.data) : c ∈ (mergeText ds acc).data := by
  induction ds generalizing acc with
  | nil => simpa [mergeText] using hc
  | cons d ds ih =>
      simp only [mergeText]
      split
      · exact ih _ (by
          rw [String.data_append, String.data_append]
          exact List.mem_append_left _ (List.mem_append_left _ hc))
      · exact ih _ (by
          rw [String.data_append, String.data_append]
          exact List.mem_append_left _ (List.mem_append_left _ hc))

theorem mem_mergeText_doc : ∀ (ds : List Document) (acc : String) (d : Document),
    d ∈ ds → ∀ c ∈ d.text.data, c ∈ (mergeText ds acc).data := by
  intro ds
  induction ds with
  | nil => intro acc d hd; cases hd
  | cons d0 ds ih =>
      intro acc d hd c hc
      simp only [mergeText]
      rcases List.mem_cons.mp hd with h | h
      · subst h
        split
        · exact mem_mergeText_acc ds _ c (by
            rw [String.data_append]
            exact List.mem_append_right _ hc)
        · exact mem_mergeText_acc ds _ c (by
            rw [String.data_append]
            exact List.mem_append_right _ hc)
      · split
        · exact ih _ d h c hc
        · exact ih _ d h c hc

theorem mergeText_strip_ne (ds : List Document) (d : Document) (hd : d ∈ ds)
    (hne : pyStrip d.text ≠ "") : pyStrip (mergeText ds "") ≠ "" := by
  intro heq
  have hall := (pyStrip_eq_empty_iff _).mp heq
  apply hne
  apply (pyStrip_eq_empty_iff d.text).mpr
  intro c hc
  exact hall c (mem_mergeText_doc ds "" d hd c hc)

theorem mem_filterRecords (raw : List Document) (d : Document)
    (h : d ∈ filterRecords raw) : pyStrip d.text ≠ "" :=
  bne_iff_ne.mp (List.mem_filter.mp h).2

theorem loadFB_single_eq (page_separator : String) (file : String) (raw : List Document) :
    loadFB true page_separator file raw =
      [⟨mergeText (filterRecords raw) "", [("source", file)]⟩] := rfl

example : pyStrip "  hi \n" = "hi" := by decide
example : firstAlphaIsUppercase "123Hello" = true := by decide
example : firstAlphaIsUppercase "123 ?" = false := by decide
example : mergeText [⟨"Hello", []⟩, ⟨"continued", []⟩] "" = "\n\n Hello continued" := by decide
example : pathSuffix "dir/a.pdf" = ".pdf" := by decide
example : pathSuffix ".bashrc" = "" := by decide
example : pathSuffix "foo." = "" := by decide
example : lookupReader ".png" = some AdapterType.image := by decide
example : installSetups ["a.jpg", "b.png", "c.jpg"] = [AdapterType.image, AdapterType.image] := by decide

theorem countSetups_filterMap (t : AdapterType) (l : List String) :
    countSetups t (l.filterMap lookupReader) =
      (l.filter (fun e => decide (lookupReader e = some t))).length := by
  induction l with
  | nil => rfl
  | cons e l ih =>
      cases h : lookupReader e with
      | none => simpa [List.filterMap_cons, h, List.filter_cons] using ih
      | some t1 =>
          by_cases ht : t1 = t
          · subst ht
            simp [List.filterMap_cons, h, List.filter_cons, countSetups] at ih ⊢
            exact ih
          · simp [List.filterMap_cons, h, List.filter_cons, countSetups, ht] at ih ⊢
            exact ih

theorem exceptMapM_error_of_mem (g : String → Except String (List Document))
    (l : List String) (x : String) (hx : x ∈ l) (e : String)
    (he : g x = Except.error e) :
    ∃ e2, exceptMapM g l = Except.error e2 := by
  induction l with
  | nil => cases hx
  | cons a l ih =>
      rcases List.mem_cons.mp hx with h | h
      · subst h
        exact ⟨e, by simp [exceptMapM, he]⟩
      · cases ha : g a with
        | error e3 => exact ⟨e3, by simp [exceptMapM, ha]⟩
        | ok y =>
            rcases ih h with ⟨e2, h2⟩
            exact ⟨e2, by simp [exceptMapM, ha, h2]⟩

theorem exceptMapM_ok_mem (g : String → Except String (List Document)) :
    ∀ (l : List String) (yss : List (List Document)),
      exceptMapM g l = Except.ok yss →
      ∀ ys ∈ yss, ∃ x ∈ l, g x = Except.ok ys := by
  intro l
  induction l with
  | nil =>
      intro yss h ys hys
      simp [exceptMapM] at h
      subst h
      cases hys
  | cons a l ih =>
      intro yss h ys hys
      cases ha : g a with
      | error e => simp [exceptMapM, ha] at h
      | ok y =>
          cases hl : exceptMapM g l with
          | error e => simp [exceptMapM, ha, hl] at h
          | ok ys2 =>
              simp [exceptMapM, ha, hl] at h
              subst h
              rcases List.mem_cons.mp hys with h2 | h2
              · exact ⟨a, List.mem_cons_self a l, by rw [ha, h2]⟩
              · rcases ih ys2 hl ys h2 with ⟨x, hx, hgx⟩
                exact ⟨x, List.mem_cons_of_mem a hx, hgx⟩

theorem read_file_ok_cases (env : Env) (hc : env.customLoaders = []) (f : String)
    (ys : List Document) (h : read_file env f = Except.ok ys) :
    ys = [] ∨ ∃ raw, ys = loadFB true "\n" f raw := by
  unfold read_file at h
  rw [hc] at h
  simp only [lookupLoader, List.find?] at h
  by_cases hr : (lookupReader (pathSuffix f)).isSome
  · rw [if_pos hr] at h
    cases hraw : env.loadFileRaw f with
    | error e => rw [hraw] at h; simp [Except.map] at h
    | ok raw =>
        rw [hraw] at h
        simp [Except.map] at h
        exact Or.inr ⟨raw, h.symm⟩
  · rw [if_neg hr] at h
    simp at h
    exact Or.inl h

/-- C9: the filter that keeps only Records whose text is non-empty
after stripping whitespace is idempotent: filtering twice equals
filtering once. -/
theorem filterRecords_idempotent (docs : List Document) :
    filterRecords (filterRecords docs) = filterRecords docs := by
  simp [filterRecords, List.filter_filter]

/-- C2 counterexample: configured with page_separator "|" and a single
uppercase-start unit, the code's merge loop builds "\n\n Hello" while
the claim's rule (two newlines plus the separator) builds "\n\n|Hello";
the loop hard-codes a space and never consults the separator. -/
theorem merge_separator_counterexample :
    mergeText [⟨"Hello", []⟩] "" = "\n\n Hello" ∧
    mergeTextSpec "|" [⟨"Hello", []⟩] "" = "\n\n|Hello" ∧
    mergeText [⟨"Hello", []⟩] "" ≠ mergeTextSpec "|" [⟨"Hello", []⟩] "" := by
  refine ⟨rfl, rfl, ?_⟩
  decide

/-- C2 (amended): the merge loop ignores the configured page_separator
entirely; for every record sequence and accumulator it builds exactly
the text the claim's rule would build with a single-space separator
(two newlines plus a space before uppercase-start units, one space
before every other unit). -/
theorem mergeText_ignores_separator (ds : List Document) (acc : String) :
    mergeText ds acc = mergeTextSpec " " ds acc := by
  induction ds generalizing acc with
  | nil => rfl
  | cons d ds ih =>
      simp only [mergeText, mergeTextSpec]
      split
      · rw [ih]
        congr 2
        rw [String.append_assoc]
        rfl
      · exact ih _

/-- C5: the 2-page PDF scenario: pages "Hello world." and
"continued text" loaded with single_text_per_document=True and
page_separator " " give exactly one record whose text is
"\n\n Hello world. continued text" and whose metadata is the source
path only. -/
theorem pdf_merge_scenario :
    loadFB true " " "doc.pdf"
        (pdfLoadFile [("1", "Hello world."), ("2", "continued text")] "doc.pdf") =
      [⟨"\n\n Hello world. continued text", [("source", "doc.pdf")]⟩] := by
  decide

/-- C10: with single_text_per_document=True, load always returns
exactly one record; when every per-unit record is filtered out the
returned record carries the empty text and source-only metadata. -/
theorem load_single_always_one (page_separator : String) (file : String)
    (raw : List Document) :
    (loadFB true page_separator file raw).length = 1 ∧
    (filterRecords raw = [] →
      loadFB true page_separator file raw = [⟨"", [("source", file)]⟩]) := by
  constructor
  · rfl
  · intro h
    rw [loadFB_single_eq, h]
    rfl

/-- Witness for load_single_always_one: a concrete whitespace-only
page is filtered out and the degenerate single record appears. -/
theorem load_single_always_one_witness :
    ((loadFB true " " "f.pdf" [⟨" ", []⟩]).length = 1 ∧
      filterRecords [⟨" ", []⟩] = []) ∧
    loadFB true " " "f.pdf" [⟨" ", []⟩] = [⟨"", [("source", "f.pdf")]⟩] :=
  ⟨⟨(load_single_always_one " " "f.pdf" [⟨" ", []⟩]).1, by decide⟩,
   (load_single_always_one " " "f.pdf" [⟨" ", []⟩]).2 (by decide)⟩

/-- C4 counterexample: a file set holding one .jpg and one .png file
runs the Image adapter's setup twice, not exactly once. -/
theorem install_once_counterexample :
    countSetups AdapterType.image (installSetups ["a.jpg", "b.png"]) = 2 ∧
    (2 : Nat) ≠ 1 := by
  exact ⟨by decide, by decide⟩

/-- C4 (amended): the Requirement Installer runs exactly once per
distinct registered extension of the resolved file set, not once per
adapter type: the number of setup invocations hitting adapter type t
equals the number of distinct extensions whose registered adapter is
t (so .jpg plus .png run the Image setup twice). -/
theorem install_once_per_distinct_extension (files : List String) (t : AdapterType) :
    countSetups t (installSetups files) =
      ((files.map pathSuffix).dedup.filter
        (fun e => decide (lookupReader e = some t))).length :=
  countSetups_filterMap t ((files.map pathSuffix).dedup)

/-- C7: the resolved file set contains each path at most once, and its
size equals the number of distinct paths of the pre-deduplication
input file collection. -/
theorem resolved_files_dedup (env : Env) (dirs : List String)
    (fs : Option (List String)) :
    (resolveFiles env dirs fs).Nodup ∧
    (resolveFiles env dirs fs).length = (rawFiles env dirs fs).toFinset.card := by
  refine ⟨List.nodup_dedup _, ?_⟩
  rw [List.card_toFinset]
  rfl

/-- C6: dispatch uses a caller-supplied custom loader whenever it
covers the file's extension: the result is the custom loader's result,
and it is unchanged under any replacement of the registry adapters'
extraction backend, so the Type Registry adapter is never invoked. -/
theorem custom_loader_precedence (env : Env) (f : String)
    (ldr : String → Except String (List Document))
    (h : lookupLoader env.customLoaders (pathSuffix f) = some ldr) :
    read_file env f = ldr f ∧
    ∀ g, read_file ⟨env.isFile, env.getFiles, g, env.customLoaders⟩ f = ldr f := by
  constructor
  · unfold read_file
    rw [h]
  · intro g
    unfold read_file
    rw [show (Env.mk env.isFile env.getFiles g env.customLoaders).customLoaders
          = env.customLoaders from rfl, h]

/-- A concrete custom loader used by the custom_loader_precedence
witness: it returns one fixed record. -/
def ldrW : String → Except String (List Document) :=
  fun _ => Except.ok [⟨"custom", []⟩]

/-- Concrete environment for the custom_loader_precedence witness: a
custom loader covers .pdf even though .pdf also has a registered
default adapter whose extraction would return a different record. -/
def envW6 : Env :=
  ⟨fun _ => true, fun _ => [], fun _ => Except.ok [⟨"Default", []⟩], [(".pdf", ldrW)]⟩

/-- Witness for custom_loader_precedence at a .pdf file whose
extension is covered by both the custom mapping and the registry. -/
theorem custom_loader_precedence_witness :
    lookupLoader envW6.customLoaders (pathSuffix "a.pdf") = some ldrW ∧
    read_file envW6 "a.pdf" = ldrW "a.pdf" :=
  ⟨rfl, (custom_loader_precedence envW6 "a.pdf" ldrW rfl).1⟩

/-- Concrete environment in which the adapter of a.pdf raises during
extraction while b.pdf extracts fine. -/
def envFail : Env :=
  ⟨fun _ => true, fun _ => [],
   fun f => if f == "a.pdf" then Except.error "boom"
            else Except.ok [⟨"Hello", [("source", "b.pdf")]⟩],
   []⟩

/-- C1 counterexample: a two-file set where exactly one file's adapter
raises: read_from_directory propagates the exception instead of
returning the other file's records. -/
theorem isolation_counterexample :
    read_from_directory envFail [] (some ["a.pdf", "b.pdf"]) = Except.error "boom" := by
  rfl

/-- C1 (amended): an exception raised while processing one resolved
file aborts the run: read_from_directory returns an error, and the
records of the other files are not returned. -/
theorem error_aborts_run (env : Env) (dirs : List String) (fs : Option (List String))
    (f : String) (hf : f ∈ resolveFiles env dirs fs) (e : String)
    (he : read_file env f = Except.error e) :
    ∃ e2, read_from_directory env dirs fs = Except.error e2 := by
  rcases exceptMapM_error_of_mem (read_file env) _ f hf e he with ⟨e2, h2⟩
  refine ⟨e2, ?_⟩
  have hne : (resolveFiles env dirs fs).isEmpty = false := by
    rw [List.isEmpty_eq_false]
    intro h0
    rw [h0] at hf
    cases hf
  simp only [read_from_directory]
  rw [hne]
  simp [h2, Except.map]

/-- Witness for error_aborts_run on the concrete failing environment. -/
theorem error_aborts_run_witness :
    ("a.pdf" ∈ resolveFiles envFail [] (some ["a.pdf", "b.pdf"]) ∧
      read_file envFail "a.pdf" = Except.error "boom") ∧
    ∃ e2, read_from_directory envFail [] (some ["a.pdf", "b.pdf"]) = Except.error e2 :=
  ⟨⟨by decide, rfl⟩,
   error_aborts_run envFail [] (some ["a.pdf", "b.pdf"]) "a.pdf" (by decide) "boom" rfl⟩

/-- Concrete environment whose directory traversal finds one PDF; its
extraction succeeds with no pages. -/
def envTrav : Env :=
  ⟨fun _ => true, fun _ => ["d/x.pdf"], fun _ => Except.ok [], []⟩

/-- C8 counterexample: input_files supplied as the empty list together
with an input directory: Python truthiness sends the code down the
directory-traversal branch, so the traversed file is resolved even
though the filtered explicit list is empty. -/
theorem explicit_files_counterexample :
    resolveFiles envTrav ["d"] (some []) = ["d/x.pdf"] ∧
    resolveFiles envTrav ["d"] (some []) ≠
      (([] : List String).filter envTrav.isFile).dedup := by
  exact ⟨rfl, by decide⟩

/-- C8 (amended): when input_files is supplied and non-empty, the
resolved set is exactly input_files filtered to existing regular files
(deduplicated), and the whole operation is independent of the
directory-traversal helper: no traversal contributes.  A
supplied-but-empty input_files instead falls back to traversal. -/
theorem explicit_files_precedence (env : Env) (dirs : List String)
    (fs : List String) (h : fs ≠ []) :
    resolveFiles env dirs (some fs) = (fs.filter env.isFile).dedup ∧
    ∀ g, read_from_directory ⟨env.isFile, g, env.loadFileRaw, env.customLoaders⟩
          dirs (some fs) = read_from_directory env dirs (some fs) := by
  have hemp : fs.isEmpty = false := List.isEmpty_eq_false.mpr h
  constructor
  · simp [resolveFiles, rawFiles, hemp]
  · intro g
    simp only [read_from_directory, resolveFiles, rawFiles, hemp]
    rfl

/-- Witness for explicit_files_precedence at a concrete non-empty
explicit file list. -/
theorem explicit_files_precedence_witness :
    ((["a.pdf"] : List String) ≠ []) ∧
    resolveFiles envTrav [] (some ["a.pdf"]) =
      ((["a.pdf"] : List String).filter envTrav.isFile).dedup :=
  ⟨by decide, (explicit_files_precedence envTrav [] ["a.pdf"] (by decide)).1⟩

/-- Concrete environment for the C3 counterexample: the only file's
only page is whitespace, so every per-unit record is filtered out. -/
def envWs : Env :=
  ⟨fun _ => true, fun _ => [],
   fun _ => Except.ok [⟨"   ", [("page_label", "1"), ("source", "w.pdf")]⟩], []⟩

/-- C3 counterexample: a run over one PDF whose only page strips to
empty: the degenerate single-text merge yields a record whose text is
the empty string, and the orchestrator returns that record. -/
theorem no_empty_text_counterexample :
    read_from_directory envWs [] (some ["w.pdf"]) =
      Except.ok [⟨"", [("source", "w.pdf")]⟩] ∧
    pyStrip "" = "" :=
  ⟨rfl, rfl⟩

/-- C3 (amended): in a run without custom loaders, no returned record
carries non-empty whitespace-only text: every record's text either is
the empty string (the degenerate merge of a file all of whose units
were filtered out) or strips to something non-empty. -/
theorem no_whitespace_only_records (env : Env) (hc : env.customLoaders = [])
    (dirs : List String) (fs : Option (List String)) (out : List Document)
    (hout : read_from_directory env dirs fs = Except.ok out) :
    ∀ d ∈ out, d.text = "" ∨ pyStrip d.text ≠ "" := by
  intro d hd
  simp only [read_from_directory] at hout
  by_cases hne : (resolveFiles env dirs fs).isEmpty
  · rw [if_pos hne] at hout
    simp at hout
    subst hout
    cases hd
  · rw [if_neg hne] at hout
    cases hmap : exceptMapM (read_file env) (resolveFiles env dirs fs) with
    | error e => rw [hmap] at hout; simp [Except.map] at hout
    | ok yss =>
        rw [hmap] at hout
        simp [Except.map] at hout
        subst hout
        rcases List.mem_flatten.mp hd with ⟨ys, hys, hdy⟩
        rcases exceptMapM_ok_mem (read_file env) _ yss hmap ys hys with ⟨x, _, hxo⟩
        rcases read_file_ok_cases env hc x ys hxo with h0 | ⟨raw, hraw⟩
        · subst h0; cases hdy
        · rw [hraw, loadFB_single_eq] at hdy
          have hdx : d = ⟨mergeText (filterRecords raw) "", [("source", x)]⟩ := by
            simpa using hdy
          subst hdx
          cases hfr : filterRecords raw with
          | nil => left; rfl
          | cons d0 ds =>
              right
              exact mergeText_strip_ne (d0 :: ds) d0 (List.mem_cons_self d0 ds)
                (mem_filterRecords raw d0 (hfr.symm ▸ List.mem_cons_self d0 ds))

/-- Concrete environment for the no_whitespace_only_records witness:
one PDF whose single page reads "Hi". -/
def envHi : Env :=
  ⟨fun _ => true, fun _ => [], fun _ => Except.ok [⟨"Hi", []⟩], []⟩

/-- Witness for no_whitespace_only_records at a concrete successful
run. -/
theorem no_whitespace_only_records_witness :
    (envHi.customLoaders = [] ∧
      read_from_directory envHi [] (some ["a.pdf"]) =
        Except.ok [⟨"\n\n Hi", [("source", "a.pdf")]⟩]) ∧
    ("\n\n Hi" = "" ∨ pyStrip "\n\n Hi" ≠ "") :=
  ⟨⟨rfl, rfl⟩,
   no_whitespace_only_records envHi rfl [] (some ["a.pdf"])
     [⟨"\n\n Hi", [("source", "a.pdf")]⟩] rfl
     ⟨"\n\n Hi", [("source", "a.pdf")]⟩ (List.mem_cons_self _ _)⟩
